import Mathlib

/-!
Shallow embedding of the calculation engine of `tool7.py` (the final version
of the Automation Roadmap Tool).  Real-valued quantities are modelled as
rationals; Python dictionaries with `dict.get(key, default)` access are
modelled as `String → Option α` consulted through `Option.getD`.
-/

namespace Tool7

/-- Scenario inputs, mirroring the Python `Inputs` dataclass. -/
structure Inputs where
  kk : String
  heat_per_day : ℚ
  plate_life : ℚ
  cnt_life : ℚ
  in_life : ℚ
  pp_life : ℚ
  o2_success : ℚ
  working_days_year : ℚ
  working_days_month : ℚ
  crew_per_shift_baseline : ℚ
  shifts_per_day : ℚ
  min_crew_per_shift_hse : ℚ
  avg_operator_cost_year : ℚ
  automated_crew_per_shift : ℚ

/-- ASCII lower-casing of one character, as Python `str.lower` acts on the
letters appearing in this application's flag values. -/
def charLower (c : Char) : Char :=
  if 'A' ≤ c ∧ c ≤ 'Z' then Char.ofNat (c.toNat + 32) else c

/-- Lower-casing of a string (Python `str.lower` restricted to ASCII letters,
which covers every flag value the tool handles). -/
def strLower (s : String) : String :=
  ⟨s.data.map charLower⟩

/-- `cylinder` demand formula from `ops_definitions`. -/
def cylinder (inputs : Inputs) : ℚ :=
  inputs.heat_per_day * 2

/-- `tip_clean` demand formula from `ops_definitions`. -/
def tip_clean (inputs : Inputs) : ℚ :=
  if inputs.cnt_life = 1 then 0 else inputs.heat_per_day

/-- `o2_lancing` demand formula from `ops_definitions`. -/
def o2_lancing (inputs : Inputs) : ℚ :=
  inputs.heat_per_day

/-- `plate_inspection` demand formula from `ops_definitions`. -/
def plate_inspection (inputs : Inputs) : ℚ :=
  inputs.heat_per_day

/-- `cnt_exchange` demand formula from `ops_definitions`:
`0.0 if inputs.kk.lower() == "yes" else (inputs.heat_per_day / inputs.cnt_life)`. -/
def cnt_exchange (inputs : Inputs) : ℚ :=
  if strLower inputs.kk = "yes" then 0 else inputs.heat_per_day / inputs.cnt_life

/-- `plate_exchange` demand formula from `ops_definitions`. -/
def plate_exchange (inputs : Inputs) : ℚ :=
  inputs.heat_per_day / inputs.plate_life

/-- `plate_cementing` demand formula from `ops_definitions`. -/
def plate_cementing (inputs : Inputs) : ℚ :=
  inputs.heat_per_day / inputs.plate_life

/-- `in_bottom_clean` demand formula from `ops_definitions`. -/
def in_bottom_clean (inputs : Inputs) : ℚ :=
  inputs.heat_per_day / inputs.plate_life

/-- `in_exchange` demand formula from `ops_definitions`. -/
def in_exchange (inputs : Inputs) : ℚ :=
  inputs.heat_per_day / inputs.in_life

/-- `pp_exchange` demand formula from `ops_definitions`. -/
def pp_exchange (inputs : Inputs) : ℚ :=
  inputs.heat_per_day / inputs.pp_life

/-- Static catalogue entry, mirroring the Python `OperationDef` dataclass. -/
structure OperationDef where
  name : String
  ops_per_day_fn : Inputs → ℚ
  default_time_min : ℚ
  default_phase : String
  default_cost_k_eur : ℚ
  default_crew_per_shift_manual : ℚ

/-- The ten-operation catalogue returned by Python `ops_definitions()`. -/
def ops_definitions : List OperationDef :=
  [ ⟨"Cylinder manipulation", cylinder, 1, "Phase 1", 100, 2⟩,
    ⟨"CNT tip cleaning", tip_clean, 3, "Phase 2", 100, 2⟩,
    ⟨"O₂ lancing", o2_lancing, 4, "Phase 1", 100, 2⟩,
    ⟨"Plate inspection", plate_inspection, 1, "Phase 2", 100, 2⟩,
    ⟨"CNT exchange", cnt_exchange, 3, "Phase 1", 100, 2⟩,
    ⟨"Plate exchange", plate_exchange, 7, "Phase 1", 100, 2⟩,
    ⟨"Plate cementing", plate_cementing, 2, "Phase 1", 100, 2⟩,
    ⟨"IN & bottom plate surface cleaning", in_bottom_clean, 3, "Phase 3", 100, 2⟩,
    ⟨"IN exchange", in_exchange, 15, "Phase 3", 100, 2⟩,
    ⟨"PP exchange", pp_exchange, 15, "Phase 3", 100, 2⟩ ]

/-- Python `phase_index`: "Phase 1"→1, "Phase 2"→2, "Phase 3"→3, anything
else (in particular "Never") → 999. -/
def phase_index (phase : String) : ℕ :=
  if phase = "Phase 1" then 1
  else if phase = "Phase 2" then 2
  else if phase = "Phase 3" then 3
  else 999

/-- Python `workload_h_per_day`. -/
def workload_h_per_day (ops_per_day : ℚ) (time_min : ℚ) : ℚ :=
  ops_per_day * time_min / 60

/-- Python `remaining_ops_for_phase`: baseline occurrences remain when the
evaluation phase precedes the selected automation phase; once automated the
remainder is 0, except for "O₂ lancing" where it is the residual failure
fraction of the baseline. -/
def remaining_ops_for_phase (op_name : String) (baseline_ops : ℚ)
    (selected_phase : String) (phase_n : ℕ) (inputs : Inputs) : ℚ :=
  if phase_n < phase_index selected_phase then baseline_ops
  else if op_name = "O₂ lancing" then (1 - inputs.o2_success) * baseline_ops
  else 0

/-- An override map: Python `Dict[str, α]` read through `dict.get(name, default)`. -/
abbrev OMap (α : Type) := String → Option α

/-- The sub-list of catalogue entries whose `enabled` flag is set
(`enabled.get(d.name, True)` in Python); every aggregation loop of
`compute_results` and `crew_per_shift_required_for_phase` iterates over
exactly these entries. -/
def enabledDefs (enabled : OMap Bool) : List OperationDef :=
  ops_definitions.filter (fun d => (enabled d.name).getD true)

/-- Per-operation crew requirement at evaluation phase `phase_n`, as computed
inside the loop of Python `crew_per_shift_required_for_phase`. -/
def crew_req_of (phases : OMap String) (crew_manual_per_shift : OMap ℚ)
    (phase_n : ℕ) (automated_crew_per_shift : ℚ) (d : OperationDef) : ℚ :=
  let sel_phase := (phases d.name).getD d.default_phase
  if phase_index sel_phase ≤ phase_n then automated_crew_per_shift
  else (crew_manual_per_shift d.name).getD d.default_crew_per_shift_manual

/-- Python `crew_per_shift_required_for_phase`: the max of the per-operation
requirements over enabled operations, floored at `min_crew_per_shift_hse`;
`max(0, min_crew_per_shift_hse)` when no operation is enabled. -/
def crew_per_shift_required_for_phase (enabled : OMap Bool) (phases : OMap String)
    (crew_manual_per_shift : OMap ℚ) (phase_n : ℕ)
    (min_crew_per_shift_hse : ℚ) (automated_crew_per_shift : ℚ) : ℚ :=
  let reqs := (enabledDefs enabled).map
    (crew_req_of phases crew_manual_per_shift phase_n automated_crew_per_shift)
  match reqs with
  | [] => max 0 min_crew_per_shift_hse
  | r :: rs => max min_crew_per_shift_hse (rs.foldl max r)

/-- Baseline workload accumulation of `compute_results`:
`baseline_h += workload_h_per_day(ops, tmin)` over enabled operations. -/
def baseline_h (inputs : Inputs) (times_min : OMap ℚ) (enabled : OMap Bool) : ℚ :=
  ((enabledDefs enabled).map (fun d =>
    workload_h_per_day (d.ops_per_day_fn inputs)
      ((times_min d.name).getD d.default_time_min))).sum

/-- Remaining workload accumulation of `compute_results` for one evaluation
phase: `remaining_h[phase_n] += workload_h_per_day(rem_ops, tmin)` over
enabled operations. -/
def remaining_h (inputs : Inputs) (times_min : OMap ℚ) (phases : OMap String)
    (enabled : OMap Bool) (phase_n : ℕ) : ℚ :=
  ((enabledDefs enabled).map (fun d =>
    workload_h_per_day
      (remaining_ops_for_phase d.name (d.ops_per_day_fn inputs)
        ((phases d.name).getD d.default_phase) phase_n inputs)
      ((times_min d.name).getD d.default_time_min))).sum

/-- `solutions_up_to[phase_n]` of `compute_results`: names, in catalogue
order, of enabled operations whose selected phase index is ≤ `phase_n`. -/
def solutions_up_to (phases : OMap String) (enabled : OMap Bool)
    (phase_n : ℕ) : List String :=
  ((enabledDefs enabled).filter (fun d =>
    phase_index ((phases d.name).getD d.default_phase) ≤ phase_n)).map (·.name)

/-- `invest_total[phase_n]` of `compute_results`: each enabled operation
contributes its cost when its selected phase index is ≤ `phase_n`. -/
def invest_total (costs_k_eur : OMap ℚ) (phases : OMap String)
    (enabled : OMap Bool) (phase_n : ℕ) : ℚ :=
  ((enabledDefs enabled).map (fun d =>
    if phase_index ((phases d.name).getD d.default_phase) ≤ phase_n
    then (costs_k_eur d.name).getD d.default_cost_k_eur else 0)).sum

/-- Output record for one phase, mirroring the Python `PhaseResults` dataclass. -/
structure PhaseResults where
  remaining_h_per_day : ℚ
  saving_h_per_day : ℚ
  saving_pct : ℚ
  saving_h_per_month : ℚ
  saving_h_per_year : ℚ
  solutions_used : List String
  investment_k_eur_total : ℚ
  investment_k_eur_incremental : ℚ
  crew_per_shift_required : ℚ
  paid_headcount_baseline : ℚ
  paid_headcount_required : ℚ
  paid_headcount_saved : ℚ
  annual_labor_cost_reduction : ℚ

/-- Body of the per-phase loop of Python `compute_results`, assembling one
`PhaseResults` record for evaluation phase `phase_n`. -/
def compute_phase (inputs : Inputs) (times_min : OMap ℚ) (phases : OMap String)
    (costs_k_eur : OMap ℚ) (enabled : OMap Bool) (crew_manual_per_shift : OMap ℚ)
    (phase_n : ℕ) : PhaseResults :=
  let base := baseline_h inputs times_min enabled
  let rem := remaining_h inputs times_min phases enabled phase_n
  let saving_h := base - rem
  let saving_pct := if base > 0 then saving_h / base else 0
  let inv_total_k := invest_total costs_k_eur phases enabled phase_n
  let inv_incr_k := inv_total_k -
    (if phase_n > 1 then invest_total costs_k_eur phases enabled (phase_n - 1) else 0)
  let crew_req := crew_per_shift_required_for_phase enabled phases
    crew_manual_per_shift phase_n inputs.min_crew_per_shift_hse
    inputs.automated_crew_per_shift
  let paid_headcount_baseline := inputs.crew_per_shift_baseline * inputs.shifts_per_day
  let paid_headcount_required := crew_req * inputs.shifts_per_day
  let paid_headcount_saved := max 0 (paid_headcount_baseline - paid_headcount_required)
  { remaining_h_per_day := rem
    saving_h_per_day := saving_h
    saving_pct := saving_pct
    saving_h_per_month := saving_h * inputs.working_days_month
    saving_h_per_year := saving_h * inputs.working_days_year
    solutions_used := solutions_up_to phases enabled phase_n
    investment_k_eur_total := inv_total_k
    investment_k_eur_incremental := inv_incr_k
    crew_per_shift_required := crew_req
    paid_headcount_baseline := paid_headcount_baseline
    paid_headcount_required := paid_headcount_required
    paid_headcount_saved := paid_headcount_saved
    annual_labor_cost_reduction := paid_headcount_saved * inputs.avg_operator_cost_year }

/-- Python `compute_results`: the baseline workload together with the phase
results (the Python dict `{1: …, 2: …, 3: …}` is modelled as a function of
the phase number). -/
def compute_results (inputs : Inputs) (times_min : OMap ℚ) (phases : OMap String)
    (costs_k_eur : OMap ℚ) (enabled : OMap Bool)
    (crew_manual_per_shift : OMap ℚ) : ℚ × (ℕ → PhaseResults) :=
  (baseline_h inputs times_min enabled,
   fun phase_n =>
     compute_phase inputs times_min phases costs_k_eur enabled
       crew_manual_per_shift phase_n)

/-- The first `some` among an ordered list of guarded error messages; models
the fail-fast sequence of `raise ValueError(...)` checks in `on_calculate`. -/
def firstSome : List (Option String) → Option String
  | [] => none
  | some m :: _ => some m
  | none :: rest => firstSome rest

/-- First error of the `for k, v in times.items()` loop of `on_calculate`:
`Time/op must be > 0` for the first enabled operation (catalogue order, the
insertion order of the UI dictionaries) whose time is ≤ 0. -/
def timesError (times_min : OMap ℚ) (enabled : OMap Bool) : Option String :=
  ops_definitions.findSome? (fun d =>
    if (enabled d.name).getD true ∧ (times_min d.name).getD d.default_time_min ≤ 0
    then some ("Time/op must be > 0 (check '" ++ d.name ++ "').") else none)

/-- First error of the `for k, v in costs.items()` loop of `on_calculate`. -/
def costsError (costs_k_eur : OMap ℚ) (enabled : OMap Bool) : Option String :=
  ops_definitions.findSome? (fun d =>
    if (enabled d.name).getD true ∧ (costs_k_eur d.name).getD d.default_cost_k_eur < 0
    then some ("Cost must be >= 0 (check '" ++ d.name ++ "').") else none)

/-- First error of the `for k, v in crew_manual.items()` loop of
`on_calculate`. -/
def crewError (crew_manual_per_shift : OMap ℚ) (enabled : OMap Bool) : Option String :=
  ops_definitions.findSome? (fun d =>
    if (enabled d.name).getD true ∧
        (crew_manual_per_shift d.name).getD d.default_crew_per_shift_manual < 0
    then some ("Crew per shift (manual) must be >= 0 (check '" ++ d.name ++ "').")
    else none)

/-- First error of the life-value loop of `on_calculate` (Plate, CNT, IN,
PP, in that order). -/
def livesError (inputs : Inputs) : Option String :=
  ([("Plate life", inputs.plate_life), ("CNT life", inputs.cnt_life),
    ("IN life", inputs.in_life), ("PP life", inputs.pp_life)]).findSome?
    (fun p => if p.2 ≤ 0 then some (p.1 ++ " must be > 0.") else none)

/-- First error of the labor-model checks of `on_calculate` (only reached
when the crew model checkbox is on). -/
def laborError (inputs : Inputs) : Option String :=
  firstSome
    [ if inputs.crew_per_shift_baseline < 0
      then some "Crew per shift (baseline) must be >= 0." else none,
      if inputs.shifts_per_day ≤ 0
      then some "Number of shifts per day must be > 0." else none,
      if inputs.min_crew_per_shift_hse < 0
      then some "Minimum crew per shift (HSE) must be >= 0." else none,
      if inputs.avg_operator_cost_year < 0
      then some "Average operator cost per year must be >= 0." else none ]

/-- The validation gate of `on_calculate`, in the source's check order:
heat/day, O₂ success rate, working days, then the three per-operation loops
(times, costs, manual crew — each over enabled operations only), then the
four life values, then (when the crew model is on) the labor fields.  The
result is the message of the first violated check, `none` when all pass. -/
def validate (inputs : Inputs) (times_min costs_k_eur crew_manual_per_shift : OMap ℚ)
    (enabled : OMap Bool) (crew_model_on : Bool) : Option String :=
  firstSome
    [ if inputs.heat_per_day ≤ 0 then some "Heat/day must be > 0." else none,
      if ¬(0 ≤ inputs.o2_success ∧ inputs.o2_success ≤ 1)
      then some "O₂ success rate must be between 0 and 1." else none,
      if inputs.working_days_month ≤ 0 ∨ inputs.working_days_year ≤ 0
      then some "Working days/month and days/year must be > 0." else none,
      timesError times_min enabled,
      costsError costs_k_eur enabled,
      crewError crew_manual_per_shift enabled,
      livesError inputs,
      if crew_model_on then laborError inputs else none ]

/-- `on_calculate` reduced to its engine-relevant behaviour: run the
validation gate; on the first violation surface the error and produce no
result, otherwise run `compute_results`. -/
def on_calculate (inputs : Inputs) (times_min : OMap ℚ) (phases : OMap String)
    (costs_k_eur : OMap ℚ) (enabled : OMap Bool)
    (crew_manual_per_shift : OMap ℚ) (crew_model_on : Bool) :
    Except String (ℚ × (ℕ → PhaseResults)) :=
  match validate inputs times_min costs_k_eur crew_manual_per_shift enabled crew_model_on with
  | some msg => Except.error msg
  | none => Except.ok (compute_results inputs times_min phases costs_k_eur enabled
      crew_manual_per_shift)

/-- Modelled from the spec (claim C3 / §4.4): the validation gate with the
check order the claim states — heat/day, O₂ success rate, working days,
then the four life values, then the per-enabled-operation checks (time,
cost, manual crew, grouped per operation in catalogue order), then the
labor fields.  Kept for comparison with `validate`, which follows the
source's order. -/
def validate_claimed_order (inputs : Inputs)
    (times_min costs_k_eur crew_manual_per_shift : OMap ℚ)
    (enabled : OMap Bool) (crew_model_on : Bool) : Option String :=
  firstSome
    [ if inputs.heat_per_day ≤ 0 then some "Heat/day must be > 0." else none,
      if ¬(0 ≤ inputs.o2_success ∧ inputs.o2_success ≤ 1)
      then some "O₂ success rate must be between 0 and 1." else none,
      if inputs.working_days_month ≤ 0 ∨ inputs.working_days_year ≤ 0
      then some "Working days/month and days/year must be > 0." else none,
      livesError inputs,
      ops_definitions.findSome? (fun d =>
        if (enabled d.name).getD true then
          firstSome
            [ if (times_min d.name).getD d.default_time_min ≤ 0
              then some ("Time/op must be > 0 (check '" ++ d.name ++ "').") else none,
              if (costs_k_eur d.name).getD d.default_cost_k_eur < 0
              then some ("Cost must be >= 0 (check '" ++ d.name ++ "').") else none,
              if (crew_manual_per_shift d.name).getD d.default_crew_per_shift_manual < 0
              then some ("Crew per shift (manual) must be >= 0 (check '" ++ d.name ++ "').")
              else none ]
        else none),
      if crew_model_on then laborError inputs else none ]

/-- One validation check: a violation condition paired with the message
reported when it fires. -/
def first_failing (checks : List (Bool × String)) : Option String :=
  checks.findSome? (fun c => if c.1 then some c.2 else none)

/-- Modelled from the amended claim: the gate's checks as one flat ordered
list of (violation condition, message) pairs — heat/day, O₂ success rate,
working days, then time per enabled operation (catalogue order), then cost
per enabled operation, then manual crew per enabled operation, then the
four life values, then (when the labor model is on) the labor fields. -/
def amended_checks (inputs : Inputs)
    (times_min costs_k_eur crew_manual_per_shift : OMap ℚ)
    (enabled : OMap Bool) (crew_model_on : Bool) : List (Bool × String) :=
  [ (decide (inputs.heat_per_day ≤ 0), "Heat/day must be > 0."),
    (decide (¬(0 ≤ inputs.o2_success ∧ inputs.o2_success ≤ 1)),
      "O₂ success rate must be between 0 and 1."),
    (decide (inputs.working_days_month ≤ 0 ∨ inputs.working_days_year ≤ 0),
      "Working days/month and days/year must be > 0.") ]
  ++ ops_definitions.map (fun d =>
      (decide ((enabled d.name).getD true ∧
          (times_min d.name).getD d.default_time_min ≤ 0),
        "Time/op must be > 0 (check '" ++ d.name ++ "')."))
  ++ ops_definitions.map (fun d =>
      (decide ((enabled d.name).getD true ∧
          (costs_k_eur d.name).getD d.default_cost_k_eur < 0),
        "Cost must be >= 0 (check '" ++ d.name ++ "')."))
  ++ ops_definitions.map (fun d =>
      (decide ((enabled d.name).getD true ∧
          (crew_manual_per_shift d.name).getD d.default_crew_per_shift_manual < 0),
        "Crew per shift (manual) must be >= 0 (check '" ++ d.name ++ "')."))
  ++ [ (decide (inputs.plate_life ≤ 0), "Plate life must be > 0."),
       (decide (inputs.cnt_life ≤ 0), "CNT life must be > 0."),
       (decide (inputs.in_life ≤ 0), "IN life must be > 0."),
       (decide (inputs.pp_life ≤ 0), "PP life must be > 0.") ]
  ++ (if crew_model_on then
      [ (decide (inputs.crew_per_shift_baseline < 0),
          "Crew per shift (baseline) must be >= 0."),
        (decide (inputs.shifts_per_day ≤ 0),
          "Number of shifts per day must be > 0."),
        (decide (inputs.min_crew_per_shift_hse < 0),
          "Minimum crew per shift (HSE) must be >= 0."),
        (decide (inputs.avg_operator_cost_year < 0),
          "Average operator cost per year must be >= 0.") ]
     else [])

/-!  General-purpose helper lemmas.  -/

theorem firstSome_nil : firstSome [] = none := rfl

theorem firstSome_cons_some (m : String) (l : List (Option String)) :
    firstSome (some m :: l) = some m := rfl

theorem firstSome_cons_none (l : List (Option String)) :
    firstSome (none :: l) = firstSome l := rfl

theorem firstSome_eq_none_iff (l : List (Option String)) :
    firstSome l = none ↔ ∀ x ∈ l, x = none := by
  induction l with
  | nil => simp [firstSome]
  | cons x rest ih =>
    cases x with
    | none => simpa [firstSome] using ih
    | some m => simp [firstSome]

theorem findSome?_congr {α β : Type} {f g : α → Option β} (l : List α)
    (h : ∀ a ∈ l, f a = g a) : l.findSome? f = l.findSome? g := by
  induction l with
  | nil => rfl
  | cons x rest ih =>
    have hx := h x (List.mem_cons_self x rest)
    have hrest := ih (fun a ha => h a (List.mem_cons_of_mem x ha))
    simp [List.findSome?_cons, hx, hrest]

theorem init_le_foldl_max (l : List ℚ) (a : ℚ) : a ≤ l.foldl max a := by
  induction l generalizing a with
  | nil => exact le_refl a
  | cons x xs ih => exact le_trans (le_max_left a x) (ih (max a x))

theorem mem_le_foldl_max {x : ℚ} (l : List ℚ) (hx : x ∈ l) (a : ℚ) :
    x ≤ l.foldl max a := by
  induction l generalizing a with
  | nil => cases hx
  | cons y ys ih =>
    rcases List.mem_cons.1 hx with rfl | hmem
    · exact le_trans (le_max_right a x) (init_le_foldl_max ys (max a x))
    · exact ih hmem (max a y)

theorem foldl_max_cases (l : List ℚ) (a : ℚ) :
    l.foldl max a = a ∨ l.foldl max a ∈ l := by
  induction l generalizing a with
  | nil => exact Or.inl rfl
  | cons y ys ih =>
    rcases ih (max a y) with h | h
    · rw [List.foldl_cons, h]
      rcases max_choice a y with hc | hc
      · exact Or.inl hc
      · exact Or.inr (by rw [hc]; exact List.mem_cons_self y ys)
    · exact Or.inr (List.mem_cons_of_mem y h)

theorem sum_ite_eq_filter_sum {α : Type} (l : List α) (p : α → Bool) (f : α → ℚ) :
    (l.map (fun a => if p a then f a else 0)).sum =
      ((l.filter p).map f).sum := by
  induction l with
  | nil => rfl
  | cons x rest ih =>
    by_cases hx : p x
    · simp [List.filter_cons, hx, ih]
    · simp [List.filter_cons, hx, ih]

/-- Two catalogue entries with the same name are not both kept when one of
them fails a filter, provided the listed names are distinct: its name does
not survive into the filtered name list. -/
theorem name_notin_filter_of_nodup {l : List OperationDef}
    (hnd : (l.map (fun d => d.name)).Nodup) {d : OperationDef} (hd : d ∈ l)
    (p : OperationDef → Bool) (hp : p d = false) :
    d.name ∉ (l.filter p).map (fun d => d.name) := by
  induction l with
  | nil => cases hd
  | cons x rest ih =>
    simp only [List.map_cons, List.nodup_cons] at hnd
    rcases List.mem_cons.1 hd with rfl | hmem
    · rw [List.filter_cons, hp]
      intro hin
      rcases List.mem_map.1 hin with ⟨d', hd', hname⟩
      exact hnd.1 (List.mem_map.2 ⟨d', (List.filter_sublist rest).subset hd', hname⟩)
    · have hne : x.name ≠ d.name := by
        intro he
        exact hnd.1 (he ▸ List.mem_map.2 ⟨d, hmem, rfl⟩)
      rw [List.filter_cons]
      by_cases hx : p x
      · simp only [hx, if_pos]
        intro hin
        rcases List.mem_cons.1 hin with he | hin2
        · exact hne he.symm
        · exact ih hnd.2 hmem hin2
      · simp only [hx]
        exact ih hnd.2 hmem

/-!  Facts about the embedded engine definitions.  -/

theorem phase_index_pos (phase : String) : 0 < phase_index phase := by
  unfold phase_index
  split <;> try norm_num
  split <;> try norm_num
  split <;> norm_num

/-- Unfolding of membership in the ten-operation catalogue. -/
theorem ops_names_nodup : (ops_definitions.map (fun d => d.name)).Nodup := by
  decide

theorem guard_eq_none {P : Prop} [Decidable P] {m : String}
    (h : (if P then some m else none) = none) : ¬P := by
  intro hp
  rw [if_pos hp] at h
  exact Option.noConfusion h

/-- A scenario the validation gate accepts satisfies every §4.4 condition
(conditions grouped by the loops of `on_calculate`). -/
theorem validate_none_facts (inputs : Inputs)
    (times_min costs_k_eur crew_manual_per_shift : OMap ℚ)
    (enabled : OMap Bool) (crew_model_on : Bool)
    (hval : validate inputs times_min costs_k_eur crew_manual_per_shift
      enabled crew_model_on = none) :
    0 < inputs.heat_per_day ∧
    (0 ≤ inputs.o2_success ∧ inputs.o2_success ≤ 1) ∧
    (0 < inputs.working_days_month ∧ 0 < inputs.working_days_year) ∧
    (∀ d ∈ ops_definitions, (enabled d.name).getD true = true →
      0 < (times_min d.name).getD d.default_time_min) ∧
    (∀ d ∈ ops_definitions, (enabled d.name).getD true = true →
      0 ≤ (costs_k_eur d.name).getD d.default_cost_k_eur) ∧
    (∀ d ∈ ops_definitions, (enabled d.name).getD true = true →
      0 ≤ (crew_manual_per_shift d.name).getD d.default_crew_per_shift_manual) ∧
    (0 < inputs.plate_life ∧ 0 < inputs.cnt_life ∧
     0 < inputs.in_life ∧ 0 < inputs.pp_life) ∧
    (crew_model_on = true →
      (0 ≤ inputs.crew_per_shift_baseline ∧ 0 < inputs.shifts_per_day ∧
       0 ≤ inputs.min_crew_per_shift_hse ∧ 0 ≤ inputs.avg_operator_cost_year)) := by
  rw [validate, firstSome_eq_none_iff] at hval
  simp only [List.forall_mem_cons] at hval
  obtain ⟨e1, e2, e3, e4, e5, e6, e7, e8, -⟩ := hval
  have h1 : 0 < inputs.heat_per_day := not_le.1 (guard_eq_none e1)
  have h2 : 0 ≤ inputs.o2_success ∧ inputs.o2_success ≤ 1 :=
    not_not.1 (guard_eq_none e2)
  have h3 : 0 < inputs.working_days_month ∧ 0 < inputs.working_days_year := by
    have hng := guard_eq_none e3
    push_neg at hng
    exact hng
  rw [timesError, List.findSome?_eq_none_iff] at e4
  rw [costsError, List.findSome?_eq_none_iff] at e5
  rw [crewError, List.findSome?_eq_none_iff] at e6
  have h4 : ∀ d ∈ ops_definitions, (enabled d.name).getD true = true →
      0 < (times_min d.name).getD d.default_time_min := by
    intro d hd he
    have := guard_eq_none (e4 d hd)
    push_neg at this
    exact this he
  have h5 : ∀ d ∈ ops_definitions, (enabled d.name).getD true = true →
      0 ≤ (costs_k_eur d.name).getD d.default_cost_k_eur := by
    intro d hd he
    have := guard_eq_none (e5 d hd)
    push_neg at this
    exact this he
  have h6 : ∀ d ∈ ops_definitions, (enabled d.name).getD true = true →
      0 ≤ (crew_manual_per_shift d.name).getD d.default_crew_per_shift_manual := by
    intro d hd he
    have := guard_eq_none (e6 d hd)
    push_neg at this
    exact this he
  rw [livesError, List.findSome?_eq_none_iff] at e7
  simp only [List.forall_mem_cons] at e7
  obtain ⟨e71, e72, e73, e74, -⟩ := e7
  have h7 : 0 < inputs.plate_life ∧ 0 < inputs.cnt_life ∧
      0 < inputs.in_life ∧ 0 < inputs.pp_life :=
    ⟨not_le.1 (guard_eq_none e71), not_le.1 (guard_eq_none e72),
     not_le.1 (guard_eq_none e73), not_le.1 (guard_eq_none e74)⟩
  have h8 : crew_model_on = true →
      (0 ≤ inputs.crew_per_shift_baseline ∧ 0 < inputs.shifts_per_day ∧
       0 ≤ inputs.min_crew_per_shift_hse ∧ 0 ≤ inputs.avg_operator_cost_year) := by
    intro hco
    rw [hco, if_pos rfl] at e8
    rw [laborError, firstSome_eq_none_iff] at e8
    simp only [List.forall_mem_cons] at e8
    obtain ⟨l1, l2, l3, l4, -⟩ := e8
    exact ⟨not_lt.1 (guard_eq_none l1), not_le.1 (guard_eq_none l2),
      not_lt.1 (guard_eq_none l3), not_lt.1 (guard_eq_none l4)⟩
  exact ⟨h1, h2, h3, h4, h5, h6, h7, h8⟩

theorem enabledDefs_mem {enabled : OMap Bool} {d : OperationDef}
    (hd : d ∈ enabledDefs enabled) :
    d ∈ ops_definitions ∧ (enabled d.name).getD true = true :=
  ⟨(List.mem_filter.1 hd).1, (List.mem_filter.1 hd).2⟩

/-- Every catalogue demand formula is nonnegative on inputs the gate
accepts. -/
theorem ops_per_day_nonneg (inputs : Inputs)
    (hheat : 0 < inputs.heat_per_day) (hplate : 0 < inputs.plate_life)
    (hcnt : 0 < inputs.cnt_life) (hin : 0 < inputs.in_life)
    (hpp : 0 < inputs.pp_life) :
    ∀ d ∈ ops_definitions, 0 ≤ d.ops_per_day_fn inputs := by
  intro d hd
  simp only [ops_definitions, List.mem_cons, List.not_mem_nil, or_false] at hd
  rcases hd with rfl | rfl | rfl | rfl | rfl | rfl | rfl | rfl | rfl | rfl
  · exact mul_nonneg hheat.le (by norm_num)
  · show 0 ≤ tip_clean inputs
    unfold tip_clean
    split
    · exact le_refl 0
    · exact hheat.le
  · exact hheat.le
  · exact hheat.le
  · show 0 ≤ cnt_exchange inputs
    unfold cnt_exchange
    split
    · exact le_refl 0
    · exact div_nonneg hheat.le hcnt.le
  · exact div_nonneg hheat.le hplate.le
  · exact div_nonneg hheat.le hplate.le
  · exact div_nonneg hheat.le hplate.le
  · exact div_nonneg hheat.le hin.le
  · exact div_nonneg hheat.le hpp.le

/-- The automation rule never increases an operation's occurrences. -/
theorem remaining_ops_le_baseline (op_name sel : String) (b : ℚ) (n : ℕ)
    (inputs : Inputs) (hb : 0 ≤ b) (ho2 : 0 ≤ inputs.o2_success) :
    remaining_ops_for_phase op_name b sel n inputs ≤ b := by
  unfold remaining_ops_for_phase
  split
  · exact le_refl b
  split
  · nlinarith [mul_nonneg ho2 hb]
  · exact hb

/-- The automation rule never produces negative occurrences. -/
theorem remaining_ops_nonneg (op_name sel : String) (b : ℚ) (n : ℕ)
    (inputs : Inputs) (hb : 0 ≤ b) (ho2 : inputs.o2_success ≤ 1) :
    0 ≤ remaining_ops_for_phase op_name b sel n inputs := by
  unfold remaining_ops_for_phase
  split
  · exact hb
  split
  · exact mul_nonneg (by linarith) hb
  · exact le_refl 0

/-!  Concrete scenarios used by the witnesses: the §8 reference scenario
(with an integral O₂ success rate so that the kernel can evaluate the
gate), the empty override maps (every value falls back to the catalogue
default, `enabled` falls back to `True`), and a few variations.  -/

/-- The spec §8 scenario: heat 20, plate life 2, CNT life 1, IN life 9,
PP life 20, KK "no", 22 working days/month, 250/year, crew model values at
the UI defaults. -/
def exInputs : Inputs :=
  { kk := "no", heat_per_day := 20, plate_life := 2, cnt_life := 1, in_life := 9,
    pp_life := 20, o2_success := 1, working_days_year := 250,
    working_days_month := 22, crew_per_shift_baseline := 3, shifts_per_day := 3,
    min_crew_per_shift_hse := 1, avg_operator_cost_year := 70000,
    automated_crew_per_shift := 1 }

/-- The empty override map: every lookup falls back to its default. -/
def noneMap {α : Type} : OMap α := fun _ => none

/-- Override map disabling every operation. -/
def allOff : OMap Bool := fun _ => some false

/-- C1: Automation Rule — for every operation, selected phase and evaluation
phase n ∈ {1,2,3}, the remaining occurrences equal the baseline unchanged
when the selected phase's rank exceeds n, and otherwise equal 0 except for
"O₂ lancing", which keeps (1 − o2_success) · baseline; `phase_index` maps
Phase 1→1, Phase 2→2, Phase 3→3 and ranks "Never" above 3, so an operation
assigned "Never" keeps its full baseline at all three evaluation phases. -/
theorem C1_automation_rule (op_name sel : String) (b : ℚ) (inputs : Inputs)
    (n : ℕ) (hn : 1 ≤ n ∧ n ≤ 3) :
    (n < phase_index sel → remaining_ops_for_phase op_name b sel n inputs = b) ∧
    (phase_index sel ≤ n →
      remaining_ops_for_phase op_name b sel n inputs =
        if op_name = "O₂ lancing" then (1 - inputs.o2_success) * b else 0) ∧
    phase_index "Phase 1" = 1 ∧ phase_index "Phase 2" = 2 ∧
    phase_index "Phase 3" = 3 ∧ 3 < phase_index "Never" ∧
    (sel = "Never" → remaining_ops_for_phase op_name b sel n inputs = b) := by
  refine ⟨?_, ?_, by decide, by decide, by decide, by decide, ?_⟩
  · intro h
    rw [remaining_ops_for_phase, if_pos h]
  · intro h
    rw [remaining_ops_for_phase, if_neg (not_lt.2 h)]
  · rintro rfl
    rw [remaining_ops_for_phase, if_pos]
    have h999 : phase_index "Never" = 999 := by decide
    rw [h999]
    omega

theorem C1_witness :
    (1 < phase_index "Phase 2" →
      remaining_ops_for_phase "Plate exchange" 10 "Phase 2" 1 exInputs = 10) ∧
    (phase_index "Phase 2" ≤ 1 →
      remaining_ops_for_phase "Plate exchange" 10 "Phase 2" 1 exInputs =
        if "Plate exchange" = "O₂ lancing" then (1 - exInputs.o2_success) * 10 else 0) ∧
    phase_index "Phase 1" = 1 ∧ phase_index "Phase 2" = 2 ∧
    phase_index "Phase 3" = 3 ∧ 3 < phase_index "Never" ∧
    ("Phase 2" = "Never" →
      remaining_ops_for_phase "Plate exchange" 10 "Phase 2" 1 exInputs = 10) :=
  C1_automation_rule "Plate exchange" "Phase 2" 10 exInputs 1 (by decide)

/-- C10: the CNT-exchange formula lower-cases the KK flag before comparing
with "yes", so any letter-casing of "yes" forces zero demand (e.g. "Yes",
"YES"), while any other flag value yields heat/day ÷ CNT life. -/
theorem C10_kk_case_insensitive (inputs : Inputs) :
    (strLower inputs.kk = "yes" → cnt_exchange inputs = 0) ∧
    (strLower inputs.kk ≠ "yes" →
      cnt_exchange inputs = inputs.heat_per_day / inputs.cnt_life) ∧
    cnt_exchange { inputs with kk := "Yes" } = 0 ∧
    cnt_exchange { inputs with kk := "YES" } = 0 ∧
    cnt_exchange { inputs with kk := "yEs" } = 0 := by
  refine ⟨?_, ?_, ?_, ?_, ?_⟩
  · intro h
    rw [cnt_exchange, if_pos h]
  · intro h
    rw [cnt_exchange, if_neg h]
  · rw [cnt_exchange, if_pos ((by decide : strLower "Yes" = "yes"))]
  · rw [cnt_exchange, if_pos ((by decide : strLower "YES" = "yes"))]
  · rw [cnt_exchange, if_pos ((by decide : strLower "yEs" = "yes"))]

theorem C10_witness :
    cnt_exchange { exInputs with kk := "Yes" } = 0 ∧
    cnt_exchange exInputs = exInputs.heat_per_day / exInputs.cnt_life :=
  ⟨(C10_kk_case_insensitive exInputs).2.2.1,
   (C10_kk_case_insensitive exInputs).2.1 (by decide)⟩

/-- C6: for every evaluation phase n ∈ {1,2,3}, `solutions_used` is exactly
the catalogue-ordered list of the names of the enabled operations whose
selected phase rank is ≤ n; the order is the catalogue order (the list is a
sublist of the catalogue's name list), the list is cumulative (an operation
automated by phase n appears for every evaluation phase ≥ n), and an
operation assigned "Never" appears in none of them. -/
theorem C6_solutions_used (inputs : Inputs) (times_min : OMap ℚ)
    (phases : OMap String) (costs_k_eur : OMap ℚ) (enabled : OMap Bool)
    (crew_manual_per_shift : OMap ℚ) (n : ℕ) (hn : 1 ≤ n ∧ n ≤ 3) :
    ((compute_results inputs times_min phases costs_k_eur enabled
        crew_manual_per_shift).2 n).solutions_used =
      ((enabledDefs enabled).filter (fun d =>
        phase_index ((phases d.name).getD d.default_phase) ≤ n)).map
        (fun d => d.name) ∧
    List.Sublist
      (((compute_results inputs times_min phases costs_k_eur enabled
          crew_manual_per_shift).2 n).solutions_used)
      (ops_definitions.map (fun d => d.name)) ∧
    (∀ d ∈ ops_definitions, (enabled d.name).getD true = true →
      phase_index ((phases d.name).getD d.default_phase) ≤ n →
      ∀ m, n ≤ m → d.name ∈ solutions_up_to phases enabled m) ∧
    (∀ d ∈ ops_definitions, (phases d.name).getD d.default_phase = "Never" →
      d.name ∉ solutions_up_to phases enabled n) := by
  refine ⟨rfl, ?_, ?_, ?_⟩
  · exact (((List.filter_sublist _).trans (List.filter_sublist _)).map _)
  · intro d hd he hrank m hm
    exact List.mem_map.2 ⟨d,
      List.mem_filter.2 ⟨List.mem_filter.2 ⟨hd, he⟩,
        by simpa using le_trans hrank hm⟩, rfl⟩
  · intro d hd hnev
    have hfil : (enabledDefs enabled).filter (fun d =>
        phase_index ((phases d.name).getD d.default_phase) ≤ n) =
        ops_definitions.filter (fun d =>
          decide (phase_index ((phases d.name).getD d.default_phase) ≤ n) &&
          (enabled d.name).getD true) := by
      rw [enabledDefs, List.filter_filter]
    have hp : (fun d : OperationDef =>
        decide (phase_index ((phases d.name).getD d.default_phase) ≤ n) &&
        (enabled d.name).getD true) d = false := by
      show (decide (phase_index ((phases d.name).getD d.default_phase) ≤ n) &&
        (enabled d.name).getD true) = false
      rw [hnev]
      have h999 : phase_index "Never" = 999 := by decide
      rw [h999]
      have hno : ¬(999 ≤ n) := by omega
      simp [hno]
    have hnot := name_notin_filter_of_nodup ops_names_nodup hd
      (fun d : OperationDef =>
        decide (phase_index ((phases d.name).getD d.default_phase) ≤ n) &&
        (enabled d.name).getD true) hp
    rw [solutions_up_to, hfil]
    exact hnot

theorem C6_witness :
    ((compute_results exInputs noneMap noneMap noneMap noneMap
        noneMap).2 1).solutions_used =
      ((enabledDefs noneMap).filter (fun d =>
        phase_index ((noneMap d.name).getD d.default_phase) ≤ 1)).map
        (fun d => d.name) ∧
    List.Sublist
      (((compute_results exInputs noneMap noneMap noneMap noneMap
          noneMap).2 1).solutions_used)
      (ops_definitions.map (fun d => d.name)) ∧
    (∀ d ∈ ops_definitions, (noneMap d.name).getD true = true →
      phase_index ((noneMap d.name).getD d.default_phase) ≤ 1 →
      ∀ m, 1 ≤ m → d.name ∈ solutions_up_to noneMap noneMap m) ∧
    (∀ d ∈ ops_definitions, (noneMap d.name).getD d.default_phase = "Never" →
      d.name ∉ solutions_up_to noneMap noneMap 1) :=
  C6_solutions_used exInputs noneMap noneMap noneMap noneMap noneMap 1 (by decide)

theorem sum_map_eq_zero {α : Type} (l : List α) (f : α → ℚ)
    (h : ∀ a ∈ l, f a = 0) : (l.map f).sum = 0 := by
  induction l with
  | nil => rfl
  | cons x rest ih =>
    rw [List.map_cons, List.sum_cons, h x (List.mem_cons_self x rest),
      ih (fun a ha => h a (List.mem_cons_of_mem x ha)), add_zero]

/-- The cumulative investment written as a sum over the filtered catalogue. -/
theorem invest_total_eq_filter_sum (costs_k_eur : OMap ℚ) (phases : OMap String)
    (enabled : OMap Bool) (n : ℕ) :
    invest_total costs_k_eur phases enabled n =
      (((enabledDefs enabled).filter (fun d =>
          phase_index ((phases d.name).getD d.default_phase) ≤ n)).map
        (fun d => (costs_k_eur d.name).getD d.default_cost_k_eur)).sum := by
  rw [invest_total]
  generalize enabledDefs enabled = l
  induction l with
  | nil => rfl
  | cons x rest ih =>
    rw [List.map_cons, List.sum_cons, List.filter_cons]
    by_cases hx : phase_index ((phases x.name).getD x.default_phase) ≤ n
    · simp [hx, ih]
    · simp [hx, ih]

/-- No phase rank is ≤ 0, so the cumulative investment before phase 1 is 0. -/
theorem invest_total_zero (costs_k_eur : OMap ℚ) (phases : OMap String)
    (enabled : OMap Bool) :
    invest_total costs_k_eur phases enabled 0 = 0 := by
  rw [invest_total]
  apply sum_map_eq_zero
  intro d _
  rw [if_neg]
  have := phase_index_pos ((phases d.name).getD d.default_phase)
  omega

/-- Cumulative investment is monotone in the evaluation phase when every
enabled operation's cost is nonnegative. -/
theorem invest_total_mono (costs_k_eur : OMap ℚ) (phases : OMap String)
    (enabled : OMap Bool)
    (hcost : ∀ d ∈ ops_definitions, (enabled d.name).getD true = true →
      0 ≤ (costs_k_eur d.name).getD d.default_cost_k_eur)
    {a b : ℕ} (hab : a ≤ b) :
    invest_total costs_k_eur phases enabled a ≤
      invest_total costs_k_eur phases enabled b := by
  rw [invest_total, invest_total]
  apply List.sum_le_sum
  intro d hd
  have hc : 0 ≤ (costs_k_eur d.name).getD d.default_cost_k_eur :=
    hcost d (enabledDefs_mem hd).1 (enabledDefs_mem hd).2
  by_cases hA : phase_index ((phases d.name).getD d.default_phase) ≤ a
  · rw [if_pos hA, if_pos (le_trans hA hab)]
  · rw [if_neg hA]
    by_cases hB : phase_index ((phases d.name).getD d.default_phase) ≤ b
    · rw [if_pos hB]
      exact hc
    · rw [if_neg hB]

/-- C4: for validated inputs, `investment_total[n]` is the sum of the costs
of the enabled operations automated by phase n, `investment_incremental[n]`
equals `investment_total[n] − investment_total[n−1]` exactly with
`investment_total[0] = 0`, and the cumulative totals are nonnegative and
non-decreasing over the three phases. -/
theorem C4_investment (inputs : Inputs) (times_min : OMap ℚ)
    (phases : OMap String) (costs_k_eur : OMap ℚ) (enabled : OMap Bool)
    (crew_manual_per_shift : OMap ℚ) (crew_model_on : Bool) (n : ℕ)
    (hval : validate inputs times_min costs_k_eur crew_manual_per_shift
      enabled crew_model_on = none)
    (hn : n = 1 ∨ n = 2 ∨ n = 3) :
    ((compute_results inputs times_min phases costs_k_eur enabled
        crew_manual_per_shift).2 n).investment_k_eur_total =
      (((enabledDefs enabled).filter (fun d =>
          phase_index ((phases d.name).getD d.default_phase) ≤ n)).map
        (fun d => (costs_k_eur d.name).getD d.default_cost_k_eur)).sum ∧
    invest_total costs_k_eur phases enabled 0 = 0 ∧
    ((compute_results inputs times_min phases costs_k_eur enabled
        crew_manual_per_shift).2 n).investment_k_eur_incremental =
      invest_total costs_k_eur phases enabled n -
        invest_total costs_k_eur phases enabled (n - 1) ∧
    0 ≤ invest_total costs_k_eur phases enabled 1 ∧
    invest_total costs_k_eur phases enabled 1 ≤
      invest_total costs_k_eur phases enabled 2 ∧
    invest_total costs_k_eur phases enabled 2 ≤
      invest_total costs_k_eur phases enabled 3 := by
  have hfacts := validate_none_facts inputs times_min costs_k_eur
    crew_manual_per_shift enabled crew_model_on hval
  have hcost := hfacts.2.2.2.2.1
  have h0 := invest_total_zero costs_k_eur phases enabled
  have hnn : 0 ≤ invest_total costs_k_eur phases enabled 1 := by
    calc (0 : ℚ) = invest_total costs_k_eur phases enabled 0 := h0.symm
      _ ≤ invest_total costs_k_eur phases enabled 1 :=
          invest_total_mono costs_k_eur phases enabled hcost (by omega)
  refine ⟨?_, h0, ?_, hnn,
    invest_total_mono costs_k_eur phases enabled hcost (by omega),
    invest_total_mono costs_k_eur phases enabled hcost (by omega)⟩
  · exact invest_total_eq_filter_sum costs_k_eur phases enabled n
  · rcases hn with rfl | rfl | rfl
    · simp only [compute_results, compute_phase]
      norm_num [h0]
    · simp only [compute_results, compute_phase]
      norm_num
    · simp only [compute_results, compute_phase]
      norm_num

theorem C4_witness :
    ((compute_results exInputs noneMap noneMap noneMap noneMap
        noneMap).2 2).investment_k_eur_total =
      (((enabledDefs noneMap).filter (fun d =>
          phase_index ((noneMap d.name).getD d.default_phase) ≤ 2)).map
        (fun d => ((noneMap : OMap ℚ) d.name).getD d.default_cost_k_eur)).sum ∧
    invest_total noneMap noneMap noneMap 0 = 0 ∧
    ((compute_results exInputs noneMap noneMap noneMap noneMap
        noneMap).2 2).investment_k_eur_incremental =
      invest_total noneMap noneMap noneMap 2 -
        invest_total noneMap noneMap noneMap (2 - 1) ∧
    0 ≤ invest_total noneMap noneMap noneMap 1 ∧
    invest_total noneMap noneMap noneMap 1 ≤
      invest_total noneMap noneMap noneMap 2 ∧
    invest_total noneMap noneMap noneMap 2 ≤
      invest_total noneMap noneMap noneMap 3 :=
  C4_investment exInputs noneMap noneMap noneMap noneMap noneMap false 2
    (by decide) (by decide)

theorem baseline_h_nonneg (inputs : Inputs) (times_min : OMap ℚ)
    (enabled : OMap Bool)
    (hops : ∀ d ∈ ops_definitions, 0 ≤ d.ops_per_day_fn inputs)
    (htime : ∀ d ∈ ops_definitions, (enabled d.name).getD true = true →
      0 < (times_min d.name).getD d.default_time_min) :
    0 ≤ baseline_h inputs times_min enabled := by
  rw [baseline_h]
  apply List.sum_nonneg
  intro x hx
  rcases List.mem_map.1 hx with ⟨d, hd, rfl⟩
  have hmem := enabledDefs_mem hd
  exact div_nonneg
    (mul_nonneg (hops d hmem.1) (htime d hmem.1 hmem.2).le) (by norm_num)

theorem remaining_h_le_baseline (inputs : Inputs) (times_min : OMap ℚ)
    (phases : OMap String) (enabled : OMap Bool) (n : ℕ)
    (hops : ∀ d ∈ ops_definitions, 0 ≤ d.ops_per_day_fn inputs)
    (htime : ∀ d ∈ ops_definitions, (enabled d.name).getD true = true →
      0 < (times_min d.name).getD d.default_time_min)
    (ho2 : 0 ≤ inputs.o2_success) :
    remaining_h inputs times_min phases enabled n ≤
      baseline_h inputs times_min enabled := by
  rw [remaining_h, baseline_h]
  apply List.sum_le_sum
  intro d hd
  have hmem := enabledDefs_mem hd
  have hrem := remaining_ops_le_baseline d.name
    ((phases d.name).getD d.default_phase) (d.ops_per_day_fn inputs) n inputs
    (hops d hmem.1) ho2
  unfold workload_h_per_day
  have ht := (htime d hmem.1 hmem.2).le
  exact (div_le_div_iff_of_pos_right (by norm_num : (0:ℚ) < 60)).2
    (mul_le_mul_of_nonneg_right hrem ht)

theorem remaining_h_nonneg (inputs : Inputs) (times_min : OMap ℚ)
    (phases : OMap String) (enabled : OMap Bool) (n : ℕ)
    (hops : ∀ d ∈ ops_definitions, 0 ≤ d.ops_per_day_fn inputs)
    (htime : ∀ d ∈ ops_definitions, (enabled d.name).getD true = true →
      0 < (times_min d.name).getD d.default_time_min)
    (ho2 : inputs.o2_success ≤ 1) :
    0 ≤ remaining_h inputs times_min phases enabled n := by
  rw [remaining_h]
  apply List.sum_nonneg
  intro x hx
  rcases List.mem_map.1 hx with ⟨d, hd, rfl⟩
  have hmem := enabledDefs_mem hd
  have hrem := remaining_ops_nonneg d.name
    ((phases d.name).getD d.default_phase) (d.ops_per_day_fn inputs) n inputs
    (hops d hmem.1) ho2
  exact div_nonneg (mul_nonneg hrem (htime d hmem.1 hmem.2).le) (by norm_num)

/-- C9: for validated inputs, the remaining workload at each evaluation
phase never exceeds the baseline, hence the saved hours are nonnegative and
the saving fraction lies in [0, 1]. -/
theorem C9_savings_invariant (inputs : Inputs) (times_min : OMap ℚ)
    (phases : OMap String) (costs_k_eur : OMap ℚ) (enabled : OMap Bool)
    (crew_manual_per_shift : OMap ℚ) (crew_model_on : Bool) (n : ℕ)
    (hval : validate inputs times_min costs_k_eur crew_manual_per_shift
      enabled crew_model_on = none) :
    ((compute_results inputs times_min phases costs_k_eur enabled
        crew_manual_per_shift).2 n).remaining_h_per_day ≤
      (compute_results inputs times_min phases costs_k_eur enabled
        crew_manual_per_shift).1 ∧
    0 ≤ ((compute_results inputs times_min phases costs_k_eur enabled
        crew_manual_per_shift).2 n).saving_h_per_day ∧
    0 ≤ ((compute_results inputs times_min phases costs_k_eur enabled
        crew_manual_per_shift).2 n).saving_pct ∧
    ((compute_results inputs times_min phases costs_k_eur enabled
        crew_manual_per_shift).2 n).saving_pct ≤ 1 := by
  have hfacts := validate_none_facts inputs times_min costs_k_eur
    crew_manual_per_shift enabled crew_model_on hval
  have hlives := hfacts.2.2.2.2.2.2.1
  have hops := ops_per_day_nonneg inputs hfacts.1 hlives.1 hlives.2.1
    hlives.2.2.1 hlives.2.2.2
  have htime := hfacts.2.2.2.1
  have hrb := remaining_h_le_baseline inputs times_min phases enabled n
    hops htime hfacts.2.1.1
  have hr0 := remaining_h_nonneg inputs times_min phases enabled n
    hops htime hfacts.2.1.2
  simp only [compute_results, compute_phase]
  refine ⟨hrb, by linarith, ?_, ?_⟩
  · by_cases hb : baseline_h inputs times_min enabled > 0
    · rw [if_pos hb]
      exact div_nonneg (by linarith) hb.le
    · rw [if_neg hb]
  · by_cases hb : baseline_h inputs times_min enabled > 0
    · rw [if_pos hb]
      rw [div_le_one hb]
      linarith
    · rw [if_neg hb]
      norm_num

theorem C9_witness :
    ((compute_results exInputs noneMap noneMap noneMap noneMap
        noneMap).2 1).remaining_h_per_day ≤
      (compute_results exInputs noneMap noneMap noneMap noneMap noneMap).1 ∧
    0 ≤ ((compute_results exInputs noneMap noneMap noneMap noneMap
        noneMap).2 1).saving_h_per_day ∧
    0 ≤ ((compute_results exInputs noneMap noneMap noneMap noneMap
        noneMap).2 1).saving_pct ∧
    ((compute_results exInputs noneMap noneMap noneMap noneMap
        noneMap).2 1).saving_pct ≤ 1 :=
  C9_savings_invariant exInputs noneMap noneMap noneMap noneMap noneMap
    false 1 (by decide)

/-- Moving an operation's automation phase to an earlier (or equal) rank
never increases its remaining occurrences, for nonnegative baselines and a
nonnegative success rate. -/
theorem remaining_ops_mono_rank (op_name sel sel_e : String) (b : ℚ) (n : ℕ)
    (inputs : Inputs) (hle : phase_index sel_e ≤ phase_index sel)
    (hb : 0 ≤ b) (ho2 : 0 ≤ inputs.o2_success) :
    remaining_ops_for_phase op_name b sel_e n inputs ≤
      remaining_ops_for_phase op_name b sel n inputs := by
  unfold remaining_ops_for_phase
  by_cases h1 : n < phase_index sel_e
  · rw [if_pos h1, if_pos (lt_of_lt_of_le h1 hle)]
  · rw [if_neg h1]
    by_cases h2 : n < phase_index sel
    · rw [if_pos h2]
      split
      · nlinarith [mul_nonneg ho2 hb]
      · exact hb
    · rw [if_neg h2]

/-- C5: moving operations' selected phases earlier (in particular moving a
single operation one phase earlier, all other inputs fixed) never increases
the remaining workload at any evaluation phase, and for a fixed scenario
`solutions_used[n]` only grows set-wise as n increases. -/
theorem C5_monotonicity (inputs : Inputs) (times_min : OMap ℚ)
    (phases phases_e : OMap String) (costs_k_eur : OMap ℚ)
    (enabled : OMap Bool) (crew_manual_per_shift : OMap ℚ)
    (crew_model_on : Bool)
    (hval : validate inputs times_min costs_k_eur crew_manual_per_shift
      enabled crew_model_on = none)
    (hearlier : ∀ d ∈ ops_definitions,
      phase_index ((phases_e d.name).getD d.default_phase) ≤
        phase_index ((phases d.name).getD d.default_phase)) :
    (∀ n : ℕ, remaining_h inputs times_min phases_e enabled n ≤
      remaining_h inputs times_min phases enabled n) ∧
    (∀ n m : ℕ, n ≤ m → ∀ s, s ∈ solutions_up_to phases enabled n →
      s ∈ solutions_up_to phases enabled m) := by
  have hfacts := validate_none_facts inputs times_min costs_k_eur
    crew_manual_per_shift enabled crew_model_on hval
  have hlives := hfacts.2.2.2.2.2.2.1
  have hops := ops_per_day_nonneg inputs hfacts.1 hlives.1 hlives.2.1
    hlives.2.2.1 hlives.2.2.2
  have htime := hfacts.2.2.2.1
  constructor
  · intro n
    rw [remaining_h, remaining_h]
    apply List.sum_le_sum
    intro d hd
    have hmem := enabledDefs_mem hd
    have hrem := remaining_ops_mono_rank d.name
      ((phases d.name).getD d.default_phase)
      ((phases_e d.name).getD d.default_phase)
      (d.ops_per_day_fn inputs) n inputs (hearlier d hmem.1)
      (hops d hmem.1) hfacts.2.1.1
    unfold workload_h_per_day
    exact (div_le_div_iff_of_pos_right (by norm_num : (0:ℚ) < 60)).2
      (mul_le_mul_of_nonneg_right hrem (htime d hmem.1 hmem.2).le)
  · intro n m hnm s hs
    rcases List.mem_map.1 hs with ⟨d, hdf, rfl⟩
    have hf := List.mem_filter.1 hdf
    have hrank : phase_index ((phases d.name).getD d.default_phase) ≤ n := by
      simpa using hf.2
    exact List.mem_map.2 ⟨d,
      List.mem_filter.2 ⟨hf.1, by simpa using le_trans hrank hnm⟩, rfl⟩

/-- Override map selecting Phase 1 for every operation. -/
def phaseAll1 : OMap String := fun _ => some "Phase 1"

theorem C5_witness :
    remaining_h exInputs noneMap phaseAll1 noneMap 1 ≤
      remaining_h exInputs noneMap noneMap noneMap 1 ∧
    "Cylinder manipulation" ∈ solutions_up_to noneMap noneMap 2 :=
  ⟨(C5_monotonicity exInputs noneMap noneMap phaseAll1 noneMap noneMap
      noneMap false (by decide) (by decide)).1 1,
   (C5_monotonicity exInputs noneMap noneMap phaseAll1 noneMap noneMap
      noneMap false (by decide) (by decide)).2 1 2 (by omega)
     "Cylinder manipulation" (by decide)⟩

/-- Modelled from the spec: the §4.1 catalogue demand formulas, keyed by
operation name and written as the spec's table states them (in particular
the KK comparison is against the literal string "yes"). -/
def specOcc (name : String) (i : Inputs) : ℚ :=
  if name = "Cylinder manipulation" then i.heat_per_day * 2
  else if name = "CNT tip cleaning" then
    (if i.cnt_life = 1 then 0 else i.heat_per_day)
  else if name = "O₂ lancing" then i.heat_per_day
  else if name = "Plate inspection" then i.heat_per_day
  else if name = "CNT exchange" then
    (if i.kk = "yes" then 0 else i.heat_per_day / i.cnt_life)
  else if name = "Plate exchange" then i.heat_per_day / i.plate_life
  else if name = "Plate cementing" then i.heat_per_day / i.plate_life
  else if name = "IN & bottom plate surface cleaning" then
    i.heat_per_day / i.plate_life
  else if name = "IN exchange" then i.heat_per_day / i.in_life
  else if name = "PP exchange" then i.heat_per_day / i.pp_life
  else 0

/-- On the declared flag domain {"yes", "no"} each catalogue entry's demand
function agrees with the spec's table formula. -/
theorem ops_fn_eq_specOcc (inputs : Inputs)
    (hkk : inputs.kk = "yes" ∨ inputs.kk = "no") :
    ∀ d ∈ ops_definitions, d.ops_per_day_fn inputs = specOcc d.name inputs := by
  intro d hd
  simp only [ops_definitions, List.mem_cons, List.not_mem_nil, or_false] at hd
  rcases hd with rfl | rfl | rfl | rfl | rfl | rfl | rfl | rfl | rfl | rfl
  · simp [specOcc, cylinder]
  · simp [specOcc, tip_clean]
  · simp [specOcc, o2_lancing]
  · simp [specOcc, plate_inspection]
  · show cnt_exchange inputs = specOcc "CNT exchange" inputs
    rw [cnt_exchange, specOcc]
    rcases hkk with h | h <;> rw [h] <;>
      simp [(by decide : strLower "yes" = "yes"),
        (by decide : strLower "no" = "no")]
  · simp [specOcc, plate_exchange]
  · simp [specOcc, plate_cementing]
  · simp [specOcc, in_bottom_clean]
  · simp [specOcc, in_exchange]
  · simp [specOcc, pp_exchange]

/-- C2: for validated inputs (with the KK flag on its declared domain) the
baseline workload is nonnegative and equals the sum over enabled operations
of `occurrences_per_day * time_per_occurrence / 60`, where the occurrences
are the spec §4.1 catalogue formulas, each nonnegative. -/
theorem C2_baseline_workload (inputs : Inputs) (times_min : OMap ℚ)
    (phases : OMap String) (costs_k_eur : OMap ℚ) (enabled : OMap Bool)
    (crew_manual_per_shift : OMap ℚ) (crew_model_on : Bool)
    (hval : validate inputs times_min costs_k_eur crew_manual_per_shift
      enabled crew_model_on = none)
    (hkk : inputs.kk = "yes" ∨ inputs.kk = "no") :
    0 ≤ (compute_results inputs times_min phases costs_k_eur enabled
      crew_manual_per_shift).1 ∧
    (compute_results inputs times_min phases costs_k_eur enabled
        crew_manual_per_shift).1 =
      ((enabledDefs enabled).map (fun d =>
        specOcc d.name inputs * (times_min d.name).getD d.default_time_min
          / 60)).sum ∧
    (∀ d ∈ ops_definitions, 0 ≤ d.ops_per_day_fn inputs) := by
  have hfacts := validate_none_facts inputs times_min costs_k_eur
    crew_manual_per_shift enabled crew_model_on hval
  have hlives := hfacts.2.2.2.2.2.2.1
  have hops := ops_per_day_nonneg inputs hfacts.1 hlives.1 hlives.2.1
    hlives.2.2.1 hlives.2.2.2
  have htime := hfacts.2.2.2.1
  refine ⟨baseline_h_nonneg inputs times_min enabled hops htime, ?_, hops⟩
  show baseline_h inputs times_min enabled = _
  rw [baseline_h]
  congr 1
  apply List.map_congr_left
  intro d hd
  have hmem := enabledDefs_mem hd
  rw [workload_h_per_day, ops_fn_eq_specOcc inputs hkk d hmem.1]

theorem C2_witness :
    0 ≤ (compute_results exInputs noneMap noneMap noneMap noneMap
      noneMap).1 ∧
    (compute_results exInputs noneMap noneMap noneMap noneMap noneMap).1 =
      ((enabledDefs noneMap).map (fun d =>
        specOcc d.name exInputs *
          ((noneMap : OMap ℚ) d.name).getD d.default_time_min / 60)).sum ∧
    (∀ d ∈ ops_definitions, 0 ≤ d.ops_per_day_fn exInputs) :=
  C2_baseline_workload exInputs noneMap noneMap noneMap noneMap noneMap
    false (by decide) (Or.inr rfl)

/-- C7: with the labor model enabled, the required crew per shift at every
evaluation phase is the HSE floor when no operation is enabled, and
otherwise the maximum of the floor and the per-operation requirements
(automated crew once automated by phase n, manual crew before); in every
case it is at least the HSE floor. -/
theorem C7_crew_floor (inputs : Inputs) (times_min : OMap ℚ)
    (phases : OMap String) (costs_k_eur : OMap ℚ) (enabled : OMap Bool)
    (crew_manual_per_shift : OMap ℚ) (n : ℕ)
    (hval : validate inputs times_min costs_k_eur crew_manual_per_shift
      enabled true = none) :
    ((compute_results inputs times_min phases costs_k_eur enabled
        crew_manual_per_shift).2 n).crew_per_shift_required =
      crew_per_shift_required_for_phase enabled phases crew_manual_per_shift
        n inputs.min_crew_per_shift_hse inputs.automated_crew_per_shift ∧
    inputs.min_crew_per_shift_hse ≤
      crew_per_shift_required_for_phase enabled phases crew_manual_per_shift
        n inputs.min_crew_per_shift_hse inputs.automated_crew_per_shift ∧
    (enabledDefs enabled = [] →
      crew_per_shift_required_for_phase enabled phases crew_manual_per_shift
        n inputs.min_crew_per_shift_hse inputs.automated_crew_per_shift =
      inputs.min_crew_per_shift_hse) ∧
    (∀ d ∈ enabledDefs enabled,
      crew_req_of phases crew_manual_per_shift n
        inputs.automated_crew_per_shift d ≤
      crew_per_shift_required_for_phase enabled phases crew_manual_per_shift
        n inputs.min_crew_per_shift_hse inputs.automated_crew_per_shift) ∧
    (crew_per_shift_required_for_phase enabled phases crew_manual_per_shift
        n inputs.min_crew_per_shift_hse inputs.automated_crew_per_shift =
      inputs.min_crew_per_shift_hse ∨
     ∃ d ∈ enabledDefs enabled,
      crew_per_shift_required_for_phase enabled phases crew_manual_per_shift
          n inputs.min_crew_per_shift_hse inputs.automated_crew_per_shift =
        crew_req_of phases crew_manual_per_shift n
          inputs.automated_crew_per_shift d) := by
  have hfacts := validate_none_facts inputs times_min costs_k_eur
    crew_manual_per_shift enabled true hval
  have hmin : 0 ≤ inputs.min_crew_per_shift_hse :=
    (hfacts.2.2.2.2.2.2.2 rfl).2.2.1
  refine ⟨rfl, ?_, ?_, ?_, ?_⟩
  all_goals
    rcases hE : enabledDefs enabled with - | ⟨x, xs⟩
  · have hC : crew_per_shift_required_for_phase enabled phases
        crew_manual_per_shift n inputs.min_crew_per_shift_hse
        inputs.automated_crew_per_shift =
        max 0 inputs.min_crew_per_shift_hse := by
      unfold crew_per_shift_required_for_phase
      rw [hE]
      rfl
    rw [hC]
    exact le_max_right 0 inputs.min_crew_per_shift_hse
  · have hC : crew_per_shift_required_for_phase enabled phases
        crew_manual_per_shift n inputs.min_crew_per_shift_hse
        inputs.automated_crew_per_shift =
        max inputs.min_crew_per_shift_hse
          ((xs.map (crew_req_of phases crew_manual_per_shift n
            inputs.automated_crew_per_shift)).foldl max
            (crew_req_of phases crew_manual_per_shift n
              inputs.automated_crew_per_shift x)) := by
      unfold crew_per_shift_required_for_phase
      rw [hE]
      rfl
    rw [hC]
    exact le_max_left _ _
  · intro _
    have hC : crew_per_shift_required_for_phase enabled phases
        crew_manual_per_shift n inputs.min_crew_per_shift_hse
        inputs.automated_crew_per_shift =
        max 0 inputs.min_crew_per_shift_hse := by
      unfold crew_per_shift_required_for_phase
      rw [hE]
      rfl
    rw [hC]
    exact max_eq_right hmin
  · intro hcon
    exact absurd hcon (List.cons_ne_nil x xs)
  · intro d hd
    exact absurd hd (List.not_mem_nil d)
  · intro d hd
    have hC : crew_per_shift_required_for_phase enabled phases
        crew_manual_per_shift n inputs.min_crew_per_shift_hse
        inputs.automated_crew_per_shift =
        max inputs.min_crew_per_shift_hse
          ((xs.map (crew_req_of phases crew_manual_per_shift n
            inputs.automated_crew_per_shift)).foldl max
            (crew_req_of phases crew_manual_per_shift n
              inputs.automated_crew_per_shift x)) := by
      unfold crew_per_shift_required_for_phase
      rw [hE]
      rfl
    rw [hC]
    rcases List.mem_cons.1 hd with rfl | hmem
    · exact le_trans (init_le_foldl_max _ _) (le_max_right _ _)
    · exact le_trans
        (mem_le_foldl_max _ (List.mem_map_of_mem _ hmem) _)
        (le_max_right _ _)
  · left
    have hC : crew_per_shift_required_for_phase enabled phases
        crew_manual_per_shift n inputs.min_crew_per_shift_hse
        inputs.automated_crew_per_shift =
        max 0 inputs.min_crew_per_shift_hse := by
      unfold crew_per_shift_required_for_phase
      rw [hE]
      rfl
    rw [hC]
    exact max_eq_right hmin
  · have hC : crew_per_shift_required_for_phase enabled phases
        crew_manual_per_shift n inputs.min_crew_per_shift_hse
        inputs.automated_crew_per_shift =
        max inputs.min_crew_per_shift_hse
          ((xs.map (crew_req_of phases crew_manual_per_shift n
            inputs.automated_crew_per_shift)).foldl max
            (crew_req_of phases crew_manual_per_shift n
              inputs.automated_crew_per_shift x)) := by
      unfold crew_per_shift_required_for_phase
      rw [hE]
      rfl
    rcases max_choice inputs.min_crew_per_shift_hse
        ((xs.map (crew_req_of phases crew_manual_per_shift n
          inputs.automated_crew_per_shift)).foldl max
          (crew_req_of phases crew_manual_per_shift n
            inputs.automated_crew_per_shift x)) with hmax | hmax
    · left
      rw [hC, hmax]
    · right
      rcases foldl_max_cases (xs.map (crew_req_of phases
          crew_manual_per_shift n inputs.automated_crew_per_shift))
          (crew_req_of phases crew_manual_per_shift n
            inputs.automated_crew_per_shift x) with hf | hf
      · exact ⟨x, List.mem_cons_self x xs, by rw [hC, hmax, hf]⟩
      · rcases List.mem_map.1 hf with ⟨d, hdmem, hdeq⟩
        exact ⟨d, List.mem_cons_of_mem x hdmem, by rw [hC, hmax, hdeq]⟩

theorem C7_witness :
    ((compute_results exInputs noneMap noneMap noneMap noneMap
        noneMap).2 1).crew_per_shift_required =
      crew_per_shift_required_for_phase noneMap noneMap noneMap 1
        exInputs.min_crew_per_shift_hse exInputs.automated_crew_per_shift ∧
    exInputs.min_crew_per_shift_hse ≤
      crew_per_shift_required_for_phase noneMap noneMap noneMap 1
        exInputs.min_crew_per_shift_hse exInputs.automated_crew_per_shift ∧
    (enabledDefs noneMap = [] →
      crew_per_shift_required_for_phase noneMap noneMap noneMap 1
        exInputs.min_crew_per_shift_hse exInputs.automated_crew_per_shift =
      exInputs.min_crew_per_shift_hse) ∧
    (∀ d ∈ enabledDefs noneMap,
      crew_req_of noneMap noneMap 1 exInputs.automated_crew_per_shift d ≤
      crew_per_shift_required_for_phase noneMap noneMap noneMap 1
        exInputs.min_crew_per_shift_hse exInputs.automated_crew_per_shift) ∧
    (crew_per_shift_required_for_phase noneMap noneMap noneMap 1
        exInputs.min_crew_per_shift_hse exInputs.automated_crew_per_shift =
      exInputs.min_crew_per_shift_hse ∨
     ∃ d ∈ enabledDefs noneMap,
      crew_per_shift_required_for_phase noneMap noneMap noneMap 1
          exInputs.min_crew_per_shift_hse exInputs.automated_crew_per_shift =
        crew_req_of noneMap noneMap 1 exInputs.automated_crew_per_shift d) :=
  C7_crew_floor exInputs noneMap noneMap noneMap noneMap noneMap 1 (by decide)

/-!  Congruence lemmas: the aggregation reads override values only at
enabled operations.  -/

theorem baseline_h_congr (inputs : Inputs) (times_min times_min' : OMap ℚ)
    (enabled : OMap Bool)
    (h : ∀ d ∈ ops_definitions, (enabled d.name).getD true = true →
      times_min' d.name = times_min d.name) :
    baseline_h inputs times_min' enabled = baseline_h inputs times_min enabled := by
  rw [baseline_h, baseline_h]
  congr 1
  apply List.map_congr_left
  intro d hd
  have hmem := enabledDefs_mem hd
  rw [h d hmem.1 hmem.2]

theorem remaining_h_congr (inputs : Inputs) (times_min times_min' : OMap ℚ)
    (phases phases' : OMap String) (enabled : OMap Bool) (n : ℕ)
    (ht : ∀ d ∈ ops_definitions, (enabled d.name).getD true = true →
      times_min' d.name = times_min d.name)
    (hp : ∀ d ∈ ops_definitions, (enabled d.name).getD true = true →
      phases' d.name = phases d.name) :
    remaining_h inputs times_min' phases' enabled n =
      remaining_h inputs times_min phases enabled n := by
  rw [remaining_h, remaining_h]
  congr 1
  apply List.map_congr_left
  intro d hd
  have hmem := enabledDefs_mem hd
  rw [ht d hmem.1 hmem.2, hp d hmem.1 hmem.2]

theorem solutions_up_to_congr (phases phases' : OMap String)
    (enabled : OMap Bool) (n : ℕ)
    (hp : ∀ d ∈ ops_definitions, (enabled d.name).getD true = true →
      phases' d.name = phases d.name) :
    solutions_up_to phases' enabled n = solutions_up_to phases enabled n := by
  rw [solutions_up_to, solutions_up_to]
  congr 1
  apply List.filter_congr
  intro d hd
  have hmem := enabledDefs_mem hd
  rw [hp d hmem.1 hmem.2]

theorem invest_total_congr (costs_k_eur costs_k_eur' : OMap ℚ)
    (phases phases' : OMap String) (enabled : OMap Bool) (n : ℕ)
    (hc : ∀ d ∈ ops_definitions, (enabled d.name).getD true = true →
      costs_k_eur' d.name = costs_k_eur d.name)
    (hp : ∀ d ∈ ops_definitions, (enabled d.name).getD true = true →
      phases' d.name = phases d.name) :
    invest_total costs_k_eur' phases' enabled n =
      invest_total costs_k_eur phases enabled n := by
  rw [invest_total, invest_total]
  congr 1
  apply List.map_congr_left
  intro d hd
  have hmem := enabledDefs_mem hd
  rw [hc d hmem.1 hmem.2, hp d hmem.1 hmem.2]

theorem crew_required_congr (enabled : OMap Bool) (phases phases' : OMap String)
    (crew crew' : OMap ℚ) (n : ℕ) (m a : ℚ)
    (hp : ∀ d ∈ ops_definitions, (enabled d.name).getD true = true →
      phases' d.name = phases d.name)
    (hc : ∀ d ∈ ops_definitions, (enabled d.name).getD true = true →
      crew' d.name = crew d.name) :
    crew_per_shift_required_for_phase enabled phases' crew' n m a =
      crew_per_shift_required_for_phase enabled phases crew n m a := by
  have hmap : (enabledDefs enabled).map (crew_req_of phases' crew' n a) =
      (enabledDefs enabled).map (crew_req_of phases crew n a) := by
    apply List.map_congr_left
    intro d hd
    have hmem := enabledDefs_mem hd
    rw [crew_req_of, crew_req_of, hp d hmem.1 hmem.2, hc d hmem.1 hmem.2]
  simp only [crew_per_shift_required_for_phase]
  rw [hmap]

/-- C8: disabled operations are excluded from every downstream figure (the
output is invariant under arbitrary changes to their override values);
disabling every operation yields baseline 0, remaining 0, empty
`solutions_used` and zero investment at every phase; and the saving
fraction is defined as 0 whenever the baseline workload is 0, the division
being guarded by the baseline-positivity test. -/
theorem C8_disabled_excluded (inputs : Inputs)
    (times_min times_min' : OMap ℚ) (phases phases' : OMap String)
    (costs_k_eur costs_k_eur' : OMap ℚ)
    (crew_manual_per_shift crew_manual_per_shift' : OMap ℚ)
    (enabled : OMap Bool) (n : ℕ) :
    ((∀ d ∈ ops_definitions, (enabled d.name).getD true = true →
        times_min' d.name = times_min d.name ∧
        phases' d.name = phases d.name ∧
        costs_k_eur' d.name = costs_k_eur d.name ∧
        crew_manual_per_shift' d.name = crew_manual_per_shift d.name) →
      compute_results inputs times_min' phases' costs_k_eur' enabled
          crew_manual_per_shift' =
        compute_results inputs times_min phases costs_k_eur enabled
          crew_manual_per_shift) ∧
    ((∀ d ∈ ops_definitions, (enabled d.name).getD true = false) →
      (compute_results inputs times_min phases costs_k_eur enabled
        crew_manual_per_shift).1 = 0 ∧
      remaining_h inputs times_min phases enabled n = 0 ∧
      solutions_up_to phases enabled n = [] ∧
      invest_total costs_k_eur phases enabled n = 0) ∧
    ((compute_results inputs times_min phases costs_k_eur enabled
        crew_manual_per_shift).1 = 0 →
      ((compute_results inputs times_min phases costs_k_eur enabled
        crew_manual_per_shift).2 n).saving_pct = 0) := by
  refine ⟨?_, ?_, ?_⟩
  · intro hagree
    have ht : ∀ d ∈ ops_definitions, (enabled d.name).getD true = true →
        times_min' d.name = times_min d.name :=
      fun d hd he => (hagree d hd he).1
    have hp : ∀ d ∈ ops_definitions, (enabled d.name).getD true = true →
        phases' d.name = phases d.name :=
      fun d hd he => (hagree d hd he).2.1
    have hc : ∀ d ∈ ops_definitions, (enabled d.name).getD true = true →
        costs_k_eur' d.name = costs_k_eur d.name :=
      fun d hd he => (hagree d hd he).2.2.1
    have hw : ∀ d ∈ ops_definitions, (enabled d.name).getD true = true →
        crew_manual_per_shift' d.name = crew_manual_per_shift d.name :=
      fun d hd he => (hagree d hd he).2.2.2
    have hb := baseline_h_congr inputs times_min times_min' enabled ht
    have hr : ∀ m, remaining_h inputs times_min' phases' enabled m =
        remaining_h inputs times_min phases enabled m :=
      fun m => remaining_h_congr inputs times_min times_min' phases phases'
        enabled m ht hp
    have hs : ∀ m, solutions_up_to phases' enabled m =
        solutions_up_to phases enabled m :=
      fun m => solutions_up_to_congr phases phases' enabled m hp
    have hi : ∀ m, invest_total costs_k_eur' phases' enabled m =
        invest_total costs_k_eur phases enabled m :=
      fun m => invest_total_congr costs_k_eur costs_k_eur' phases phases'
        enabled m hc hp
    have hq : ∀ m, crew_per_shift_required_for_phase enabled phases'
        crew_manual_per_shift' m inputs.min_crew_per_shift_hse
        inputs.automated_crew_per_shift =
        crew_per_shift_required_for_phase enabled phases
          crew_manual_per_shift m inputs.min_crew_per_shift_hse
          inputs.automated_crew_per_shift :=
      fun m => crew_required_congr enabled phases phases'
        crew_manual_per_shift crew_manual_per_shift' m
        inputs.min_crew_per_shift_hse inputs.automated_crew_per_shift hp hw
    unfold compute_results
    refine congrArg₂ Prod.mk hb (funext fun m => ?_)
    simp only [compute_phase, hb, hr, hs, hi, hq]
  · intro hoff
    have hE : enabledDefs enabled = [] := by
      rw [enabledDefs, List.filter_eq_nil_iff]
      intro d hd
      rw [hoff d hd]
      simp
    refine ⟨?_, ?_, ?_, ?_⟩
    · show baseline_h inputs times_min enabled = 0
      rw [baseline_h, hE]
      rfl
    · rw [remaining_h, hE]
      rfl
    · rw [solutions_up_to, hE]
      rfl
    · rw [invest_total, hE]
      rfl
  · intro hb0
    have hb : baseline_h inputs times_min enabled = 0 := hb0
    simp only [compute_results, compute_phase]
    rw [if_neg]
    rw [hb]
    exact lt_irrefl 0

theorem C8_witness :
    (compute_results exInputs noneMap noneMap noneMap allOff noneMap).1 = 0 ∧
    remaining_h exInputs noneMap noneMap allOff 1 = 0 ∧
    solutions_up_to noneMap allOff 1 = [] ∧
    invest_total noneMap noneMap allOff 1 = 0 ∧
    ((compute_results exInputs noneMap noneMap noneMap allOff
      noneMap).2 1).saving_pct = 0 := by
  have h := C8_disabled_excluded exInputs noneMap noneMap noneMap noneMap
    noneMap noneMap noneMap noneMap allOff 1
  obtain ⟨h2a, h2b, h2c, h2d⟩ := h.2.1 (by decide)
  exact ⟨h2a, h2b, h2c, h2d, h.2.2 h2a⟩

theorem firstSome_cons_or (x : Option String) (l : List (Option String)) :
    firstSome (x :: l) = x.or (firstSome l) := by
  cases x <;> rfl

theorem findSome?_cons_or {α β : Type} (f : α → Option β) (a : α) (l : List α) :
    List.findSome? f (a :: l) = (f a).or (List.findSome? f l) := by
  cases h : f a <;> simp [List.findSome?_cons, h, Option.or]

theorem guard_decide {P : Prop} [Decidable P] {m : String} :
    (if decide P = true then some m else none) = (if P then some m else none) := by
  by_cases h : P <;> simp [h]

/-- The source gate equals the first failing check of the amended flat check
list: same checks, in the source's order (per-operation loops before the
life values). -/
theorem validate_eq_first_failing (inputs : Inputs)
    (times_min costs_k_eur crew_manual_per_shift : OMap ℚ)
    (enabled : OMap Bool) (crew_model_on : Bool) :
    validate inputs times_min costs_k_eur crew_manual_per_shift enabled
      crew_model_on =
    first_failing (amended_checks inputs times_min costs_k_eur
      crew_manual_per_shift enabled crew_model_on) := by
  have s1 : ("Plate life" ++ " must be > 0." : String) = "Plate life must be > 0." := rfl
  have s2 : ("CNT life" ++ " must be > 0." : String) = "CNT life must be > 0." := rfl
  have s3 : ("IN life" ++ " must be > 0." : String) = "IN life must be > 0." := rfl
  have s4 : ("PP life" ++ " must be > 0." : String) = "PP life must be > 0." := rfl
  cases crew_model_on <;>
    simp only [validate, first_failing, amended_checks, timesError, costsError,
      crewError, livesError, laborError, List.findSome?_append,
      List.findSome?_map, findSome?_cons_or, firstSome_cons_or,
      List.findSome?_nil, firstSome_nil, Function.comp_def, guard_decide,
      s1, s2, s3, s4, Bool.false_eq_true, if_false, if_true,
      Option.or_none, Option.or_assoc]

/-- C3 (amended): the gate runs before aggregation and fail-fast reports the
first violated check of the fixed order heat/day, O₂ success, working days,
per-enabled-operation times, costs and manual crews (catalogue order), the
four life values, then the labor fields; on violation `on_calculate`
surfaces the message and produces no result (in particular heat/day = 0
yields the heat error), and disabled operations' override values are never
validated. -/
theorem C3_validation_gate (inputs : Inputs)
    (times_min costs_k_eur crew_manual_per_shift : OMap ℚ)
    (phases : OMap String) (enabled : OMap Bool) (crew_model_on : Bool) :
    (validate inputs times_min costs_k_eur crew_manual_per_shift enabled
        crew_model_on =
      first_failing (amended_checks inputs times_min costs_k_eur
        crew_manual_per_shift enabled crew_model_on)) ∧
    (inputs.heat_per_day = 0 →
      on_calculate inputs times_min phases costs_k_eur enabled
        crew_manual_per_shift crew_model_on =
      Except.error "Heat/day must be > 0.") ∧
    (∀ times_min' costs_k_eur' crew_manual_per_shift' : OMap ℚ,
      (∀ d ∈ ops_definitions, (enabled d.name).getD true = true →
        times_min' d.name = times_min d.name ∧
        costs_k_eur' d.name = costs_k_eur d.name ∧
        crew_manual_per_shift' d.name = crew_manual_per_shift d.name) →
      validate inputs times_min' costs_k_eur' crew_manual_per_shift' enabled
          crew_model_on =
        validate inputs times_min costs_k_eur crew_manual_per_shift enabled
          crew_model_on) := by
  refine ⟨validate_eq_first_failing inputs times_min costs_k_eur
    crew_manual_per_shift enabled crew_model_on, ?_, ?_⟩
  · intro h0
    have hle : inputs.heat_per_day ≤ 0 := le_of_eq h0
    rw [on_calculate]
    have hv : validate inputs times_min costs_k_eur crew_manual_per_shift
        enabled crew_model_on = some "Heat/day must be > 0." := by
      rw [validate, firstSome_cons_or, if_pos hle]
      rfl
    rw [hv]
  · intro times_min' costs_k_eur' crew_manual_per_shift' hagree
    have hT : timesError times_min' enabled = timesError times_min enabled := by
      rw [timesError, timesError]
      apply findSome?_congr
      intro d hd
      by_cases he : (enabled d.name).getD true = true
      · rw [(hagree d hd he).1]
      · rw [if_neg (fun hc => he hc.1), if_neg (fun hc => he hc.1)]
    have hC : costsError costs_k_eur' enabled = costsError costs_k_eur enabled := by
      rw [costsError, costsError]
      apply findSome?_congr
      intro d hd
      by_cases he : (enabled d.name).getD true = true
      · rw [(hagree d hd he).2.1]
      · rw [if_neg (fun hc => he hc.1), if_neg (fun hc => he hc.1)]
    have hW : crewError crew_manual_per_shift' enabled =
        crewError crew_manual_per_shift enabled := by
      rw [crewError, crewError]
      apply findSome?_congr
      intro d hd
      by_cases he : (enabled d.name).getD true = true
      · rw [(hagree d hd he).2.2]
      · rw [if_neg (fun hc => he hc.1), if_neg (fun hc => he hc.1)]
    rw [validate, validate, hT, hC, hW]

/-- Scenario refuting the claimed check order: CNT life is 0 and the enabled
Cylinder manipulation's time override is 0. -/
def cexInputs : Inputs := { exInputs with cnt_life := 0 }

/-- Time override map setting Cylinder manipulation's time to 0. -/
def cexTimes : OMap ℚ := fun n => if n = "Cylinder manipulation" then some 0 else none

theorem C3_counterexample :
    validate cexInputs cexTimes noneMap noneMap noneMap false =
      some "Time/op must be > 0 (check 'Cylinder manipulation')." ∧
    validate_claimed_order cexInputs cexTimes noneMap noneMap noneMap false =
      some "CNT life must be > 0." ∧
    validate cexInputs cexTimes noneMap noneMap noneMap false ≠
      validate_claimed_order cexInputs cexTimes noneMap noneMap noneMap false :=
  ⟨by decide, by decide, by decide⟩

/-- Scenario with zero heat/day and otherwise valid fields. -/
def zeroHeatInputs : Inputs := { exInputs with heat_per_day := 0 }

theorem C3_witness :
    on_calculate zeroHeatInputs noneMap noneMap noneMap noneMap noneMap
      false = Except.error "Heat/day must be > 0." :=
  (C3_validation_gate zeroHeatInputs noneMap noneMap noneMap noneMap
    noneMap false).2.1 rfl

end Tool7
